import Mathlib

/-!
Shallow embedding of the `aicc_pipeline` Python package.

Python floats are modelled by `ℚ` (every literal in the relevant code is a
small decimal, and all arithmetic on the verified paths is exact in `ℚ`).
Python byte strings are modelled by `List ℕ` (each element one byte),
Python dicts keyed by strings by association lists, and the port set by
`Finset ℕ`.
-/

namespace Aicc

/-! ### turn/detector.py -/

/-- Embeds `TurnDecision` (turn/detector.py). -/
inductive TurnDecision
  | COMPLETE
  | INCOMPLETE
deriving DecidableEq, Repr

/-- Embeds the string `value` of the Python enum members. -/
def TurnDecision.value : TurnDecision → String
  | .COMPLETE => "complete"
  | .INCOMPLETE => "incomplete"

/-- Embeds the dataclass `TurnResult` (turn/detector.py). -/
structure TurnResult where
  decision : TurnDecision
  fusion_score : ℚ
  morpheme_score : ℚ
  duration_score : ℚ
  silence_score : ℚ
  transcript : String
  duration : ℚ
deriving DecidableEq, Repr

/-- Embeds the configuration fields set in `TurnDetector.__init__`. -/
structure TurnDetector where
  morpheme_weight : ℚ := 0.6
  duration_weight : ℚ := 0.2
  silence_weight : ℚ := 0.2
  complete_threshold : ℚ := 0.65
deriving DecidableEq, Repr

/-- Embeds Python's built-in `round` to an integer, which rounds
halves to the nearest even integer. -/
def pyRoundInt (x : ℚ) : ℤ :=
  if x - ⌊x⌋ = 1/2 then (if 2 ∣ ⌊x⌋ then ⌊x⌋ else ⌊x⌋ + 1) else round x

/-- Embeds Python's `round(x, 3)` on the exact rational value. -/
def pyRound3 (x : ℚ) : ℚ :=
  (pyRoundInt (x * 1000) : ℚ) / 1000

/-- Embeds `TurnDetector._compute_duration_score`. -/
def TurnDetector.compute_duration_score (duration : ℚ) : ℚ :=
  if duration < 0.5 then 0.3
  else if duration < 2.0 then 0.5 + (duration - 0.5) * (0.2 / 1.5)
  else if duration < 5.0 then 0.7 - (duration - 2.0) * (0.2 / 3.0)
  else 0.4

/-- Embeds `TurnDetector._compute_silence_score`. -/
def TurnDetector.compute_silence_score (silence_duration_ms : ℚ) : ℚ :=
  if silence_duration_ms < 200 then 0.3
  else if silence_duration_ms < 400 then 0.5
  else if silence_duration_ms < 800 then 0.7
  else 0.85

/-- Embeds `TurnDetector.detect`.  The call
`self._morpheme_analyzer.analyze(transcript)` is abstracted by the
function argument `analyze` (the analyzer consults the external Kiwi
morpheme library, so its score is a parameter of the model). -/
def TurnDetector.detect (td : TurnDetector) (analyze : String → ℚ)
    (transcript : String) (duration : ℚ) (silence_duration_ms : ℚ := 400.0) :
    TurnResult :=
  let morpheme_score := analyze transcript
  let duration_score := TurnDetector.compute_duration_score duration
  let silence_score := TurnDetector.compute_silence_score silence_duration_ms
  let fusion_score :=
    td.morpheme_weight * morpheme_score +
    td.duration_weight * duration_score +
    td.silence_weight * silence_score
  let decision :=
    if duration > 5.0 ∧ morpheme_score < 0.4 then
      TurnDecision.INCOMPLETE
    else if fusion_score ≥ td.complete_threshold then
      TurnDecision.COMPLETE
    else
      TurnDecision.INCOMPLETE
  { decision := decision
    fusion_score := pyRound3 fusion_score
    morpheme_score := pyRound3 morpheme_score
    duration_score := pyRound3 duration_score
    silence_score := pyRound3 silence_score
    transcript := transcript
    duration := pyRound3 duration }

/-- Helper: the decision field of `TurnDetector.detect`, unfolded. -/
theorem TurnDetector.detect_decision (td : TurnDetector) (analyze : String → ℚ)
    (t : String) (d s : ℚ) :
    (td.detect analyze t d s).decision =
      (if d > 5.0 ∧ analyze t < 0.4 then TurnDecision.INCOMPLETE
       else if td.morpheme_weight * analyze t +
                td.duration_weight * TurnDetector.compute_duration_score d +
                td.silence_weight * TurnDetector.compute_silence_score s ≥
                td.complete_threshold then TurnDecision.COMPLETE
       else TurnDecision.INCOMPLETE) := rfl

/-- C1: override to INCOMPLETE when duration exceeds 5 s and the morpheme
score is below 0.4; otherwise the decision is COMPLETE exactly when the
weighted fusion score reaches the completion threshold, equality included. -/
theorem c1_detect_override_and_fusion_threshold (td : TurnDetector)
    (analyze : String → ℚ) (t : String) (d s : ℚ) :
    (d > 5.0 ∧ analyze t < 0.4 →
      (td.detect analyze t d s).decision = TurnDecision.INCOMPLETE) ∧
    (¬(d > 5.0 ∧ analyze t < 0.4) →
      ((td.detect analyze t d s).decision = TurnDecision.COMPLETE ↔
        td.morpheme_weight * analyze t +
        td.duration_weight * TurnDetector.compute_duration_score d +
        td.silence_weight * TurnDetector.compute_silence_score s ≥
        td.complete_threshold)) := by
  rw [TurnDetector.detect_decision]
  constructor
  · intro h
    simp [h]
  · intro h
    simp only [if_neg h]
    split_ifs with h2 <;> simp [h2]

/-- C1 witness: concrete instantiation of both branches. -/
theorem c1_detect_override_and_fusion_threshold_witness :
    ((6 : ℚ) > 5.0 ∧ (fun _ : String => (0.2 : ℚ)) "a" < 0.4) ∧
    (TurnDetector.detect {} (fun _ => 0.2) "a" 6 400).decision =
      TurnDecision.INCOMPLETE :=
  ⟨by norm_num,
    (c1_detect_override_and_fusion_threshold {} (fun _ => 0.2) "a" 6 400).1
      (by norm_num)⟩

/-- C7 counterexample: at a duration of exactly 5.0 s the duration score is
not 0.5 (the branch `duration < 5.0` is strict, so 5.0 falls to the final
branch). -/
theorem c7_duration_score_at_five_counterexample :
    TurnDetector.compute_duration_score 5.0 ≠ 0.5 := by
  norm_num [TurnDetector.compute_duration_score]

/-- C7 amended: at a duration of exactly 5.0 s the duration score is 0.4,
because the linear 0.7-to-0.5 segment excludes its right endpoint. -/
theorem c7_duration_score_at_five :
    TurnDetector.compute_duration_score 5.0 = 0.4 := by
  norm_num [TurnDetector.compute_duration_score]

/-- C8 counterexample: at exactly 400 ms of silence the silence score is
not 0.5 (the branch `silence_duration_ms < 400` is strict). -/
theorem c8_silence_score_at_400_counterexample :
    TurnDetector.compute_silence_score 400 ≠ 0.5 := by
  norm_num [TurnDetector.compute_silence_score]

/-- C8 amended: at exactly 400 ms of silence the silence score is 0.7. -/
theorem c8_silence_score_at_400 :
    TurnDetector.compute_silence_score 400 = 0.7 := by
  norm_num [TurnDetector.compute_silence_score]

/-- C9: every reported score and the duration are rounded to 3 decimals,
the transcript is returned unchanged, and the decision is computed from the
unrounded fusion value; the final conjunct exhibits an input whose reported
(rounded) fusion score clears the threshold while the decision, taken on
the unrounded value, is INCOMPLETE. -/
theorem c9_detect_rounding (td : TurnDetector) (analyze : String → ℚ)
    (t : String) (d s : ℚ) :
    ((td.detect analyze t d s).fusion_score =
      pyRound3 (td.morpheme_weight * analyze t +
        td.duration_weight * TurnDetector.compute_duration_score d +
        td.silence_weight * TurnDetector.compute_silence_score s)) ∧
    ((td.detect analyze t d s).morpheme_score = pyRound3 (analyze t)) ∧
    ((td.detect analyze t d s).duration_score =
      pyRound3 (TurnDetector.compute_duration_score d)) ∧
    ((td.detect analyze t d s).silence_score =
      pyRound3 (TurnDetector.compute_silence_score s)) ∧
    ((td.detect analyze t d s).duration = pyRound3 d) ∧
    ((td.detect analyze t d s).transcript = t) ∧
    ((td.detect analyze t d s).decision = TurnDecision.COMPLETE ↔
      ¬(d > 5.0 ∧ analyze t < 0.4) ∧
      td.morpheme_weight * analyze t +
        td.duration_weight * TurnDetector.compute_duration_score d +
        td.silence_weight * TurnDetector.compute_silence_score s ≥
        td.complete_threshold) ∧
    ((TurnDetector.detect {} (fun _ => 331/375) "" 0.3 100).decision =
        TurnDecision.INCOMPLETE ∧
      (TurnDetector.detect {} (fun _ => 331/375) "" 0.3 100).fusion_score ≥
        0.65) := by
  refine ⟨rfl, rfl, rfl, rfl, rfl, rfl, ?_, ?_, ?_⟩
  · rw [TurnDetector.detect_decision]
    split_ifs with h1 h2 <;> simp_all
  · rw [TurnDetector.detect_decision]
    norm_num [TurnDetector.compute_duration_score,
      TurnDetector.compute_silence_score]
  · show pyRound3 _ ≥ _
    norm_num [TurnDetector.compute_duration_score,
      TurnDetector.compute_silence_score, pyRound3, pyRoundInt]
    norm_num [Int.floor_eq_iff, round_eq]

/-! ### audio/rtp.py -/

/-- Embeds the dataclass `RTPPacket` (audio/rtp.py); the payload is the
byte list after the header (and after any padding trim). -/
structure RTPPacket where
  version : ℕ
  padding : Bool
  extension : Bool
  marker : Bool
  payload_type : ℕ
  sequence_number : ℕ
  timestamp : ℕ
  ssrc : ℕ
  payload : List ℕ
deriving DecidableEq, Repr

/-- Embeds the header-size computation of `RTPPacket.parse`: 12 bytes plus
the CSRC list, plus the extension header when the extension bit is set and
`len(data) > header_size + 4`. -/
def rtpHeaderSize (data : List ℕ) : ℕ :=
  let first_byte := data.getD 0 0
  let header_size := 12 + (first_byte % 16) * 4
  if (first_byte / 16) % 2 = 1 ∧ header_size + 4 < data.length then
    header_size + 4 +
      (256 * data.getD (header_size + 2) 0 + data.getD (header_size + 3) 0) * 4
  else header_size

/-- Embeds the padding trim of `RTPPacket.parse`: the number of bytes the
parser removes from the end of the remainder after the header. -/
def rtpPaddingLen (data : List ℕ) : ℕ :=
  let payload := data.drop (rtpHeaderSize data)
  let padding_length := payload.getLastD 0
  if (data.getD 0 0 / 32) % 2 = 1 ∧ 0 < padding_length ∧
      padding_length ≤ payload.length then
    padding_length
  else 0

/-- Embeds `RTPPacket.parse`; the `ValueError` paths return `none`. -/
def RTPPacket.parse (data : List ℕ) : Option RTPPacket :=
  if data.length < 12 then none
  else
    let first_byte := data.getD 0 0
    let second_byte := data.getD 1 0
    if (first_byte / 64) % 4 ≠ 2 then none
    else
      let sequence_number := 256 * data.getD 2 0 + data.getD 3 0
      let timestamp :=
        ((256 * data.getD 4 0 + data.getD 5 0) * 256 + data.getD 6 0) * 256 +
          data.getD 7 0
      let ssrc :=
        ((256 * data.getD 8 0 + data.getD 9 0) * 256 + data.getD 10 0) * 256 +
          data.getD 11 0
      let header_size := rtpHeaderSize data
      if data.length < header_size then none
      else
        let payload0 := data.drop header_size
        let payload :=
          if (first_byte / 32) % 2 = 1 ∧ payload0 ≠ [] then
            let padding_length := payload0.getLastD 0
            if 0 < padding_length ∧ padding_length ≤ payload0.length then
              payload0.take (payload0.length - padding_length)
            else payload0
          else payload0
        some
          { version := (first_byte / 64) % 4
            padding := decide ((first_byte / 32) % 2 = 1)
            extension := decide ((first_byte / 16) % 2 = 1)
            marker := decide ((second_byte / 128) % 2 = 1)
            payload_type := second_byte % 128
            sequence_number := sequence_number
            timestamp := timestamp
            ssrc := ssrc
            payload := payload }

/-- Header size exactly as C2 words it: `12 + 4·csrcCount`, plus
`4 + 4·extLen` whenever the extension flag is set. -/
def claimHeaderSize (data : List ℕ) : ℕ :=
  let first_byte := data.getD 0 0
  let base := 12 + 4 * (first_byte % 16)
  if (first_byte / 16) % 2 = 1 then
    base + 4 + 4 * (256 * data.getD (base + 2) 0 + data.getD (base + 3) 0)
  else base

/-- Padding length exactly as C2 words it: the value of the last byte of
the remainder when the padding flag is set, else 0. -/
def claimPaddingLen (data : List ℕ) : ℕ :=
  if (data.getD 0 0 / 32) % 2 = 1 then
    (data.drop (claimHeaderSize data)).getLastD 0
  else 0

/-- A 16-byte datagram with version 2 and the extension flag set whose
total length is exactly `12 + 4`: the parser leaves the extension header
in the payload. -/
def rtpExtEdge : List ℕ := [144, 0, 0, 0, 0, 0, 0, 0, 0, 0, 0, 0, 0, 0, 0, 0]

/-- C2 counterexample: on `rtpExtEdge` the parse succeeds with a 4-byte
payload, while the claimed formula `len − headerSize − paddingLen` gives 0,
because the code consumes the extension header only when
`len(data) > header_size + 4` holds strictly. -/
theorem c2_payload_length_counterexample :
    (RTPPacket.parse rtpExtEdge).map (fun p => p.payload.length) = some 4 ∧
    rtpExtEdge.length - claimHeaderSize rtpExtEdge -
      claimPaddingLen rtpExtEdge = 0 ∧
    (4 : ℕ) ≠ 0 := by decide

/-- C2 amended: for every datagram the parser accepts, the payload length
is `len − headerSize − paddingLen`, where the header includes the
extension header only when `len(data) > header_size + 4`, and the padding
trim applies only when the flag is set and the last byte `p` of the
remainder satisfies `0 < p ≤ remainder length`. -/
theorem c2_parse_payload_length (data : List ℕ) (pkt : RTPPacket)
    (h : RTPPacket.parse data = some pkt) :
    pkt.payload.length = data.length - rtpHeaderSize data - rtpPaddingLen data := by
  simp only [RTPPacket.parse] at h
  split_ifs at h with h1 h2 h3 h4 h5
  · -- padding branch, trim applied
    simp only [Option.some.injEq] at h
    subst h
    simp only [rtpPaddingLen]
    rw [if_pos ⟨h4.1, h5⟩]
    simp [List.length_take, List.length_drop]
  · -- padding flag set but trim conditions fail
    simp only [Option.some.injEq] at h
    subst h
    simp only [rtpPaddingLen]
    rw [if_neg (by intro hc; exact h5 ⟨hc.2.1, hc.2.2⟩)]
    simp [List.length_drop]
  · -- no padding flag or empty remainder
    simp only [Option.some.injEq] at h
    subst h
    simp only [rtpPaddingLen]
    rw [if_neg (by
      intro hc
      rcases hc with ⟨hp, hpos, hle⟩
      apply h4
      refine ⟨hp, ?_⟩
      intro hnil
      rw [hnil] at hpos
      simp at hpos)]
    simp [List.length_drop]

/-- A padded version-2 datagram: 12-byte header, 4-byte remainder whose
last byte is 2. -/
def rtpPadEx : List ℕ := [160, 0, 0, 0, 0, 0, 0, 0, 0, 0, 0, 0, 1, 2, 3, 2]

/-- The packet `rtpPadEx` parses to. -/
def rtpPadExPkt : RTPPacket :=
  { version := 2, padding := true, extension := false, marker := false
    payload_type := 0, sequence_number := 0, timestamp := 0, ssrc := 0
    payload := [1, 2] }

/-- C2 witness: the amended payload-length law evaluated on `rtpPadEx`. -/
theorem c2_parse_payload_length_witness :
    RTPPacket.parse rtpPadEx = some rtpPadExPkt ∧
    rtpPadExPkt.payload.length =
      rtpPadEx.length - rtpHeaderSize rtpPadEx - rtpPaddingLen rtpPadEx :=
  ⟨by decide, c2_parse_payload_length rtpPadEx rtpPadExPkt (by decide)⟩

/-! ### websocket/manager.py -/

/-- Embeds Python's `str.strip()` as used on transcripts: leading and
trailing whitespace characters are removed. -/
def pyStrip (s : String) : String :=
  String.mk
    (((s.data.dropWhile Char.isWhitespace).reverse.dropWhile
      Char.isWhitespace).reverse)

/-- Embeds the two entries of the event dict that `WebSocketManager.send`
inspects: `event_dict.get('type')` and `event_dict.get('transcript', '')`.
No other entry influences the queueing behaviour. -/
structure WSEvent where
  type : String
  transcript : String := ""
deriving DecidableEq, Repr

/-- Embeds the queue and counters of `WebSocketManager`. -/
structure WSState where
  queue : List WSEvent := []
  dropped_count : ℕ := 0
  sent_count : ℕ := 0
deriving DecidableEq, Repr

/-- Embeds the filter in `WebSocketManager.send`: a `turn_complete` event
whose transcript is falsy or strips to empty is discarded. -/
def wsFiltered (e : WSEvent) : Prop :=
  e.type = "turn_complete" ∧ (e.transcript = "" ∨ pyStrip e.transcript = "")

instance (e : WSEvent) : Decidable (wsFiltered e) := by
  unfold wsFiltered; infer_instance

/-- Embeds `WebSocketManager.send` for a manager whose queue was built
with `maxsize = queue_maxsize`: `put_nowait` raises `QueueFull` exactly
when `0 < maxsize ≤ qsize`; on `QueueFull` the oldest event is popped and
the drop counter incremented, then the new event is enqueued (an empty
full queue would fall to the `QueueEmpty` branch and do nothing). -/
def wsSend (queue_maxsize : ℕ) (e : WSEvent) (st : WSState) : WSState :=
  if wsFiltered e then st
  else if 0 < queue_maxsize ∧ queue_maxsize ≤ st.queue.length then
    match st.queue with
    | [] => st
    | _ :: rest =>
      { queue := rest ++ [e]
        dropped_count := st.dropped_count + 1
        sent_count := st.sent_count }
  else { st with queue := st.queue ++ [e] }

/-- A sequence of `send` calls, oldest first. -/
def wsSendAll (queue_maxsize : ℕ) (es : List WSEvent) (st : WSState) : WSState :=
  es.foldl (fun s e => wsSend queue_maxsize e s) st

/-- The events of a `send` sequence that survive the transcript filter. -/
def wsUnfiltered (es : List WSEvent) : List WSEvent :=
  es.filter fun e => !decide (wsFiltered e)

/-! ### core/pipeline.py (SpeakerProcessor) -/

/-- Embeds the per-speaker turn statistics of `SpeakerProcessor`. -/
structure SpeakerStats where
  turn_count : ℕ := 0
  complete_turns : ℕ := 0
  incomplete_turns : ℕ := 0
  total_speech_time : ℚ := 0
deriving DecidableEq, Repr

/-- Embeds the `TurnEvent` built in `SpeakerProcessor._emit_turn`. -/
structure TurnEvent where
  type : String
  call_id : String
  speaker : String
  start_time : ℚ
  end_time : ℚ
  transcript : String
  decision : String
  fusion_score : ℚ
deriving DecidableEq, Repr

/-- Embeds the state `SpeakerProcessor._emit_turn` snapshots on entry,
together with the configuration it reads. -/
structure EmitTurnCtx where
  speech_start_time : Option ℚ
  silence_frames : ℕ
  current_time : ℚ
  window_size : ℚ
  target_sample_rate : ℚ
  min_speech_ms : ℚ
  call_id : String
  speaker : String
deriving DecidableEq

/-- Embeds `SpeakerProcessor._emit_turn`: returns the updated statistics
and the emitted event, if any.  The transcript is
`turn_result.transcript` (the snapshot the code prefers when present). -/
def emitTurn (ctx : EmitTurnCtx) (stats : SpeakerStats)
    (turn_result : TurnResult) : SpeakerStats × Option TurnEvent :=
  match ctx.speech_start_time with
  | none => (stats, none)
  | some speech_start_time =>
    let end_time := ctx.current_time -
      ctx.silence_frames * ctx.window_size / ctx.target_sample_rate
    let duration := end_time - speech_start_time
    if duration < ctx.min_speech_ms / 1000 then (stats, none)
    else if pyStrip turn_result.transcript = "" then (stats, none)
    else
      ({ turn_count := stats.turn_count + 1
         total_speech_time := stats.total_speech_time + duration
         complete_turns :=
           if turn_result.decision = TurnDecision.COMPLETE then
             stats.complete_turns + 1
           else stats.complete_turns
         incomplete_turns :=
           if turn_result.decision = TurnDecision.COMPLETE then
             stats.incomplete_turns
           else stats.incomplete_turns + 1 },
       some
         { type := "turn_complete"
           call_id := ctx.call_id
           speaker := ctx.speaker
           start_time := pyRound3 speech_start_time
           end_time := pyRound3 end_time
           transcript := turn_result.transcript
           decision := turn_result.decision.value
           fusion_score := turn_result.fusion_score })

/-- C3: a blank transcript never produces a `turn_complete` event:
`_emit_turn` returns with the statistics unchanged and no event, and
`WebSocketManager.send` discards a blank-transcript `turn_complete`
event, leaving its state unchanged. -/
theorem c3_no_blank_turn_complete (ctx : EmitTurnCtx) (stats : SpeakerStats)
    (turn_result : TurnResult) (K : ℕ) (st : WSState) (e : WSEvent)
    (h1 : pyStrip turn_result.transcript = "")
    (h2 : e.type = "turn_complete") (h3 : pyStrip e.transcript = "") :
    emitTurn ctx stats turn_result = (stats, none) ∧ wsSend K e st = st := by
  constructor
  · cases hss : ctx.speech_start_time with
    | none => simp [emitTurn, hss]
    | some t => simp [emitTurn, hss, h1]
  · unfold wsSend
    rw [if_pos ⟨h2, Or.inr h3⟩]

/-- C3 witness: a whitespace-only transcript on concrete states. -/
theorem c3_no_blank_turn_complete_witness :
    pyStrip " " = "" ∧
    (emitTurn ⟨some 1, 0, 3, 480, 16000, 300, "c", "customer"⟩ {}
        ⟨TurnDecision.COMPLETE, 0.8, 0.9, 0.5, 0.7, " ", 2⟩ = ({}, none) ∧
      wsSend 5 ⟨"turn_complete", " "⟩ {} = {}) :=
  ⟨by decide,
    c3_no_blank_turn_complete ⟨some 1, 0, 3, 480, 16000, 300, "c", "customer"⟩
      {} ⟨TurnDecision.COMPLETE, 0.8, 0.9, 0.5, 0.7, " ", 2⟩ 5 {}
      ⟨"turn_complete", " "⟩ (by decide) rfl (by decide)⟩

/-- Helper: a `send` sequence from any state whose queue is within
capacity keeps the last `K` surviving events, drops the overflow from the
front one event at a time, and never touches the sent counter. -/
theorem wsSendAll_spec (K : ℕ) (hK : 0 < K) (es : List WSEvent) :
    ∀ (q : List WSEvent) (d s : ℕ), q.length ≤ K →
      (wsSendAll K es ⟨q, d, s⟩).queue =
        (q ++ wsUnfiltered es).drop (q.length + (wsUnfiltered es).length - K) ∧
      (wsSendAll K es ⟨q, d, s⟩).dropped_count =
        d + (q.length + (wsUnfiltered es).length - K) ∧
      (wsSendAll K es ⟨q, d, s⟩).sent_count = s := by
  induction es with
  | nil =>
    intro q d s hlen
    refine ⟨?_, ?_, rfl⟩ <;>
      simp [wsSendAll, wsUnfiltered, Nat.sub_eq_zero_of_le hlen]
  | cons e es ih =>
    intro q d s hlen
    have hstep : wsSendAll K (e :: es) ⟨q, d, s⟩ =
        wsSendAll K es (wsSend K e ⟨q, d, s⟩) := rfl
    by_cases hf : wsFiltered e
    · have hsend : wsSend K e ⟨q, d, s⟩ = ⟨q, d, s⟩ := by
        unfold wsSend; rw [if_pos hf]
      have hu : wsUnfiltered (e :: es) = wsUnfiltered es := by
        simp [wsUnfiltered, List.filter_cons, hf]
      rw [hstep, hsend, hu]
      exact ih q d s hlen
    · have hu : wsUnfiltered (e :: es) = e :: wsUnfiltered es := by
        simp [wsUnfiltered, List.filter_cons, hf]
      by_cases hfull : 0 < K ∧ K ≤ q.length
      · obtain ⟨a, t, rfl⟩ : ∃ a t, q = a :: t := by
          cases q with
          | nil => simp at hfull; omega
          | cons a t => exact ⟨a, t, rfl⟩
        have hKt : t.length + 1 = K := by
          simp only [List.length_cons] at hlen hfull
          omega
        have hsend : wsSend K e ⟨a :: t, d, s⟩ = ⟨t ++ [e], d + 1, s⟩ := by
          unfold wsSend
          rw [if_neg hf, if_pos hfull]
        have hlen' : (t ++ [e]).length ≤ K := by
          simp only [List.length_append, List.length_cons, List.length_nil]
          omega
        rw [hstep, hsend, hu]
        obtain ⟨ihq, ihd, ihs⟩ := ih (t ++ [e]) (d + 1) s hlen'
        refine ⟨?_, ?_, ihs⟩
        · rw [ihq]
          have i1 : (t ++ [e]).length + (wsUnfiltered es).length - K =
              (wsUnfiltered es).length := by
            simp only [List.length_append, List.length_cons, List.length_nil]
            omega
          have i2 : (a :: t).length + (e :: wsUnfiltered es).length - K =
              (wsUnfiltered es).length + 1 := by
            simp only [List.length_cons]
            omega
          rw [i1, i2]
          have l2 : (a :: t) ++ (e :: wsUnfiltered es) =
              a :: ((t ++ [e]) ++ wsUnfiltered es) := by simp
          rw [l2, List.drop_succ_cons]
        · rw [ihd]
          simp only [List.length_append, List.length_cons, List.length_nil]
          omega
      · have hL : q.length < K := by
          rcases Nat.lt_or_ge q.length K with h | h
          · exact h
          · exact absurd ⟨hK, h⟩ hfull
        have hsend : wsSend K e ⟨q, d, s⟩ = ⟨q ++ [e], d, s⟩ := by
          unfold wsSend
          rw [if_neg hf, if_neg hfull]
        have hlen' : (q ++ [e]).length ≤ K := by
          simp only [List.length_append, List.length_cons, List.length_nil]
          omega
        rw [hstep, hsend, hu]
        obtain ⟨ihq, ihd, ihs⟩ := ih (q ++ [e]) d s hlen'
        refine ⟨?_, ?_, ihs⟩
        · rw [ihq]
          have i1 : (q ++ [e]).length + (wsUnfiltered es).length - K =
              q.length + (e :: wsUnfiltered es).length - K := by
            simp only [List.length_append, List.length_cons, List.length_nil]
            omega
          have l1 : (q ++ [e]) ++ wsUnfiltered es = q ++ (e :: wsUnfiltered es) := by
            simp
          rw [i1, l1]
        · rw [ihd]
          simp only [List.length_append, List.length_cons, List.length_nil]
          omega

/-- C5 counterexample: a single `send` of a `turn_complete` event with an
empty transcript is filtered out, so with `K = 2` and `N = 1` the sum
`sent + dropped + enqueued` is 0, not `N`. -/
theorem c5_accounting_counterexample :
    (wsSendAll 2 [{ type := "turn_complete", transcript := "" }] {}).sent_count +
      (wsSendAll 2 [{ type := "turn_complete", transcript := "" }] {}).dropped_count +
      (wsSendAll 2 [{ type := "turn_complete", transcript := "" }] {}).queue.length = 0 ∧
    (0 : ℕ) ≠ 1 := by decide

/-- C5 amended: for a send sequence on a queue of capacity `K ≥ 1`, the
queue never exceeds `K` events; the queue retains the most recent
surviving events with the oldest evicted first and the drop counter
counting every eviction; and `sent + dropped + enqueued` equals the
number of events that pass the blank-transcript `turn_complete` filter
(filtered events are counted by none of the three). -/
theorem c5_queue_bound_and_accounting (K : ℕ) (hK : 0 < K)
    (es : List WSEvent) :
    (wsSendAll K es {}).queue.length ≤ K ∧
    (wsSendAll K es {}).queue =
      (wsUnfiltered es).drop ((wsUnfiltered es).length - K) ∧
    (wsSendAll K es {}).dropped_count = (wsUnfiltered es).length - K ∧
    (wsSendAll K es {}).sent_count + (wsSendAll K es {}).dropped_count +
      (wsSendAll K es {}).queue.length = (wsUnfiltered es).length := by
  obtain ⟨hq, hd, hs⟩ := wsSendAll_spec K hK es [] 0 0 (by simp)
  simp only [List.nil_append, List.length_nil, Nat.zero_add] at hq hd
  refine ⟨?_, hq, hd, ?_⟩
  · rw [hq, List.length_drop]; omega
  · rw [hq, hd, hs, List.length_drop]
    omega

/-- C5 witness: capacity 2, four sends of which one is filtered; the two
newest surviving events remain, one is dropped. -/
theorem c5_queue_bound_and_accounting_witness :
    0 < 2 ∧
    ((wsSendAll 2 [⟨"a", "x"⟩, ⟨"turn_complete", " "⟩, ⟨"b", "y"⟩,
        ⟨"c", "z"⟩] {}).queue.length ≤ 2 ∧
      (wsSendAll 2 [⟨"a", "x"⟩, ⟨"turn_complete", " "⟩, ⟨"b", "y"⟩,
        ⟨"c", "z"⟩] {}).queue =
        (wsUnfiltered [⟨"a", "x"⟩, ⟨"turn_complete", " "⟩, ⟨"b", "y"⟩,
          ⟨"c", "z"⟩]).drop
          ((wsUnfiltered [⟨"a", "x"⟩, ⟨"turn_complete", " "⟩, ⟨"b", "y"⟩,
            ⟨"c", "z"⟩]).length - 2) ∧
      (wsSendAll 2 [⟨"a", "x"⟩, ⟨"turn_complete", " "⟩, ⟨"b", "y"⟩,
        ⟨"c", "z"⟩] {}).dropped_count =
        (wsUnfiltered [⟨"a", "x"⟩, ⟨"turn_complete", " "⟩, ⟨"b", "y"⟩,
          ⟨"c", "z"⟩]).length - 2 ∧
      (wsSendAll 2 [⟨"a", "x"⟩, ⟨"turn_complete", " "⟩, ⟨"b", "y"⟩,
        ⟨"c", "z"⟩] {}).sent_count +
        (wsSendAll 2 [⟨"a", "x"⟩, ⟨"turn_complete", " "⟩, ⟨"b", "y"⟩,
          ⟨"c", "z"⟩] {}).dropped_count +
        (wsSendAll 2 [⟨"a", "x"⟩, ⟨"turn_complete", " "⟩, ⟨"b", "y"⟩,
          ⟨"c", "z"⟩] {}).queue.length =
        (wsUnfiltered [⟨"a", "x"⟩, ⟨"turn_complete", " "⟩, ⟨"b", "y"⟩,
          ⟨"c", "z"⟩]).length) :=
  ⟨Nat.zero_lt_succ 1,
    c5_queue_bound_and_accounting 2 (Nat.zero_lt_succ 1)
      [⟨"a", "x"⟩, ⟨"turn_complete", " "⟩, ⟨"b", "y"⟩, ⟨"c", "z"⟩]⟩

/-! ### core/port_pool.py -/

/-- Embeds `PortPool`: the `available` set of customer ports and the
`allocated` dict (`call_id → (customer_port, agent_port)`), the latter as
an association list with unique keys.  The redundant `_port_to_call`
reverse index carries no extra state for the claims and is omitted. -/
structure PortPool where
  available : Finset ℕ
  allocated : List (String × ℕ × ℕ)
deriving DecidableEq

/-- Embeds `set(range(start, end, 2))` from `PortPool.__init__`. -/
def rangeStep2 (start stop : ℕ) : Finset ℕ :=
  (Finset.range stop).filter fun p => start ≤ p ∧ (p - start) % 2 = 0

/-- Embeds `PortPool.__init__(start, end)`. -/
def PortPool.init (start stop : ℕ) : PortPool :=
  { available := rangeStep2 start stop, allocated := [] }

/-- Embeds `PortPool.allocate`: returns the pair and the new state, or
`none` when the pool is exhausted (`ValueError`).  The Python dict
assignment `allocated[call_id] = (p, p+1)` replaces any entry under the
same key. -/
def PortPool.allocateR (call_id : String) (pp : PortPool) :
    Option ((ℕ × ℕ) × PortPool) :=
  if h : pp.available.Nonempty then
    let customer_port := pp.available.min' h
    let agent_port := customer_port + 1
    some ((customer_port, agent_port),
      { available := pp.available.erase customer_port
        allocated := (call_id, customer_port, agent_port) ::
          pp.allocated.filter fun e => !(e.1 == call_id) })
  else none

/-- The state transition of `allocate` (exhaustion raises before any
mutation, leaving the state unchanged). -/
def PortPool.allocate (call_id : String) (pp : PortPool) : PortPool :=
  match pp.allocateR call_id with
  | some (_, pp') => pp'
  | none => pp

/-- Embeds `PortPool.release`: a no-op when the call id is unknown. -/
def PortPool.release (call_id : String) (pp : PortPool) : PortPool :=
  match pp.allocated.find? (fun e => e.1 == call_id) with
  | some e =>
    { available := insert e.2.1 pp.available
      allocated := pp.allocated.filter fun x => !(x.1 == call_id) }
  | none => pp

/-- A call into the pool: `allocate(c)` or `release(c)`. -/
inductive PoolOp
  | alloc (c : String)
  | rel (c : String)
deriving DecidableEq, Repr

/-- Embeds one API call on the pool. -/
def PortPool.step (pp : PortPool) : PoolOp → PortPool
  | .alloc c => pp.allocate c
  | .rel c => pp.release c

/-- Embeds a sequence of API calls on the pool, first call first. -/
def PortPool.run (pp : PortPool) : List PoolOp → PortPool
  | [] => pp
  | op :: ops => (pp.step op).run ops

/-- A call sequence is disciplined when `allocate` is never invoked for a
call id that is currently allocated (the REST layer guarantees this by
checking the session registry first). -/
def disciplinedFrom (pp : PortPool) : List PoolOp → Bool
  | [] => true
  | .alloc c :: ops =>
    pp.allocated.all (fun e => !(e.1 == c)) && disciplinedFrom (pp.allocate c) ops
  | .rel c :: ops => disciplinedFrom (pp.release c) ops

/-- The internal inductive invariant of the pool. -/
def PoolInv (start stop : ℕ) (pp : PortPool) : Prop :=
  pp.available ⊆ rangeStep2 start stop ∧
  (pp.allocated.map fun e => e.1).Nodup ∧
  (pp.allocated.map fun e => e.2.1).Nodup ∧
  (∀ e ∈ pp.allocated, e.2.1 ∈ rangeStep2 start stop ∧ e.2.2 = e.2.1 + 1) ∧
  (∀ p ∈ rangeStep2 start stop,
    (p ∈ pp.available ↔ ¬ ∃ e ∈ pp.allocated, e.2.1 = p))

/-- Helper: the invariant holds initially. -/
theorem poolInv_init (start stop : ℕ) : PoolInv start stop (PortPool.init start stop) := by
  refine ⟨fun p hp => hp, ?_, ?_, ?_, fun p hp => ?_⟩
  · simp [PortPool.init]
  · simp [PortPool.init]
  · intro e he
    simp [PortPool.init] at he
  · simp [PortPool.init, hp]

/-- Helper: a filter by key inequality is the identity when all keys
differ from the given one. -/
theorem filter_key_eq_self (l : List (String × ℕ × ℕ)) (c : String)
    (h : l.all (fun e => !(e.1 == c)) = true) :
    (l.filter fun e => !(e.1 == c)) = l := by
  rw [List.filter_eq_self]
  intro e he
  exact (List.all_eq_true.mp h) e he

/-- Helper: `allocate` preserves the invariant when the call id is not
currently allocated. -/
theorem poolInv_allocate (start stop : ℕ) (pp : PortPool) (c : String)
    (hinv : PoolInv start stop pp)
    (hfresh : pp.allocated.all (fun e => !(e.1 == c)) = true) :
    PoolInv start stop (pp.allocate c) := by
  obtain ⟨hsub, hkeys, hports, hent, hpart⟩ := hinv
  unfold PortPool.allocate PortPool.allocateR
  split_ifs with hne
  · set p := pp.available.min' hne with hp
    have hpav : p ∈ pp.available := pp.available.min'_mem hne
    have hprange : p ∈ rangeStep2 start stop := hsub hpav
    have hpnot : ¬ ∃ e ∈ pp.allocated, e.2.1 = p := (hpart p hprange).mp hpav
    rw [filter_key_eq_self pp.allocated c hfresh]
    refine ⟨?_, ?_, ?_, ?_, ?_⟩
    · intro q hq
      exact hsub (Finset.mem_of_mem_erase hq)
    · simp only [List.map_cons, List.nodup_cons]
      refine ⟨?_, hkeys⟩
      intro hc
      obtain ⟨e, he, hec⟩ := List.mem_map.mp hc
      have := (List.all_eq_true.mp hfresh) e he
      simp only [Bool.not_eq_true', beq_eq_false_iff_ne] at this
      exact this hec
    · simp only [List.map_cons, List.nodup_cons]
      refine ⟨?_, hports⟩
      intro hc
      obtain ⟨e, he, hec⟩ := List.mem_map.mp hc
      exact hpnot ⟨e, he, hec⟩
    · intro e he
      rcases List.mem_cons.mp he with rfl | he'
      · exact ⟨hprange, rfl⟩
      · exact hent e he'
    · intro q hq
      constructor
      · intro hqe
        have hqav : q ∈ pp.available := Finset.mem_of_mem_erase hqe
        have hqp : q ≠ p := Finset.ne_of_mem_erase hqe
        intro ⟨e, he, heq⟩
        rcases List.mem_cons.mp he with rfl | he'
        · exact hqp heq.symm
        · exact (hpart q hq).mp hqav ⟨e, he', heq⟩
      · intro hno
        have hqp : q ≠ p := by
          intro hq
          exact hno ⟨(c, p, p + 1), List.mem_cons_self _ _, hq.symm⟩
        refine Finset.mem_erase.mpr ⟨hqp, ?_⟩
        refine (hpart q hq).mpr ?_
        intro ⟨e, he', heq⟩
        exact hno ⟨e, List.mem_cons_of_mem _ he', heq⟩
  · exact ⟨hsub, hkeys, hports, hent, hpart⟩

/-- Helper: `release` preserves the invariant. -/
theorem poolInv_release (start stop : ℕ) (pp : PortPool) (c : String)
    (hinv : PoolInv start stop pp) :
    PoolInv start stop (pp.release c) := by
  obtain ⟨hsub, hkeys, hports, hent, hpart⟩ := hinv
  unfold PortPool.release
  cases hfind : pp.allocated.find? (fun e => e.1 == c) with
  | none => exact ⟨hsub, hkeys, hports, hent, hpart⟩
  | some e =>
    have hemem : e ∈ pp.allocated := List.mem_of_find?_eq_some hfind
    have hekey : e.1 = c := by
      have := List.find?_some hfind
      simpa using this
    have herange := (hent e hemem).1
    refine ⟨?_, ?_, ?_, ?_, ?_⟩
    · intro q hq
      rcases Finset.mem_insert.mp hq with rfl | hq'
      · exact herange
      · exact hsub hq'
    · exact List.Nodup.sublist ((List.filter_sublist _).map _) hkeys
    · exact List.Nodup.sublist ((List.filter_sublist _).map _) hports
    · intro x hx
      exact hent x (List.mem_of_mem_filter hx)
    · intro q hq
      constructor
      · intro hqin
        intro ⟨x, hx, hxq⟩
        have hxmem := List.mem_of_mem_filter hx
        have hxkey : x.1 ≠ c := by
          have := List.of_mem_filter hx
          simpa using this
        rcases Finset.mem_insert.mp hqin with rfl | hq'
        · -- q is the released port; x would be a second entry with it
          have : x = e := by
            apply List.inj_on_of_nodup_map hports hxmem hemem
            rw [hxq]
          exact hxkey (this ▸ hekey)
        · exact (hpart q hq).mp hq' ⟨x, hxmem, hxq⟩
      · intro hno
        by_cases hqe : q = e.2.1
        · subst hqe
          exact Finset.mem_insert_self _ _
        · refine Finset.mem_insert.mpr (Or.inr ?_)
          refine (hpart q hq).mpr ?_
          intro ⟨x, hx, hxq⟩
          have hxkey : x.1 ≠ c := by
            intro hxc
            have : x = e := by
              apply List.inj_on_of_nodup_map hkeys hx hemem
              rw [hxc, hekey]
            exact hqe (by rw [← hxq, this])
          refine hno ⟨x, ?_, hxq⟩
          refine List.mem_filter.mpr ⟨hx, ?_⟩
          simpa using hxkey

/-- Helper: the invariant holds after any disciplined call sequence. -/
theorem poolInv_run (start stop : ℕ) (ops : List PoolOp) :
    ∀ pp : PortPool, PoolInv start stop pp →
      disciplinedFrom pp ops = true → PoolInv start stop (pp.run ops) := by
  induction ops with
  | nil => intro pp h _; exact h
  | cons op ops ih =>
    intro pp h hd
    cases op with
    | alloc c =>
      simp only [disciplinedFrom, Bool.and_eq_true] at hd
      exact ih (pp.allocate c) (poolInv_allocate start stop pp c h hd.1) hd.2
    | rel c =>
      simp only [disciplinedFrom] at hd
      exact ih (pp.release c) (poolInv_release start stop pp c h) hd

/-- C4 counterexample: two `allocate` calls with the same call id leak a
pair: after `allocate("a"); allocate("a")` on the pool over ports
`[0, 4)`, customer port 0 is neither available nor recorded in
`allocated`, so the claimed partition fails for a sequence that reuses a
live call id. -/
theorem c4_partition_counterexample :
    0 ∈ rangeStep2 0 4 ∧
    0 ∉ ((PortPool.init 0 4).run [.alloc "a", .alloc "a"]).available ∧
    (((PortPool.init 0 4).run [.alloc "a", .alloc "a"]).allocated.all
      fun e => !(e.2.1 == 0)) = true := by decide

/-- C4 amended: as long as `allocate` is never invoked for a call id that
is still allocated (which the REST registration layer enforces), every
customer port of the configured range is either available or allocated
under exactly one call id — never both, never neither — and every
allocated pair is `(p, p+1)` with `p` even when the range start is even. -/
theorem c4_port_pair_partition (start stop : ℕ) (ops : List PoolOp)
    (hstart : start % 2 = 0)
    (hd : disciplinedFrom (PortPool.init start stop) ops = true) :
    (∀ p ∈ rangeStep2 start stop,
      Xor' (p ∈ ((PortPool.init start stop).run ops).available)
        (∃ e ∈ ((PortPool.init start stop).run ops).allocated, e.2.1 = p)) ∧
    (∀ e ∈ ((PortPool.init start stop).run ops).allocated,
      e.2.2 = e.2.1 + 1 ∧ e.2.1 % 2 = 0) := by
  obtain ⟨_, _, _, hent, hpart⟩ :=
    poolInv_run start stop ops (PortPool.init start stop)
      (poolInv_init start stop) hd
  constructor
  · intro p hp
    rcases hpart p hp with ⟨h1, h2⟩
    by_cases hav : p ∈ ((PortPool.init start stop).run ops).available
    · exact Or.inl ⟨hav, h1 hav⟩
    · refine Or.inr ⟨?_, hav⟩
      by_contra hno
      exact hav (h2 hno)
  · intro e he
    obtain ⟨hrange, hagent⟩ := hent e he
    refine ⟨hagent, ?_⟩
    simp only [rangeStep2, Finset.mem_filter, Finset.mem_range] at hrange
    omega

/-- C4 witness: a disciplined concrete run over ports `[0, 4)`. -/
theorem c4_port_pair_partition_witness :
    (0 % 2 = 0 ∧
      disciplinedFrom (PortPool.init 0 4)
        [.alloc "a", .rel "a", .alloc "b"] = true) ∧
    ((∀ p ∈ rangeStep2 0 4,
      Xor' (p ∈ ((PortPool.init 0 4).run [.alloc "a", .rel "a", .alloc "b"]).available)
        (∃ e ∈ ((PortPool.init 0 4).run [.alloc "a", .rel "a", .alloc "b"]).allocated,
          e.2.1 = p)) ∧
    (∀ e ∈ ((PortPool.init 0 4).run [.alloc "a", .rel "a", .alloc "b"]).allocated,
      e.2.2 = e.2.1 + 1 ∧ e.2.1 % 2 = 0)) :=
  ⟨⟨rfl, by decide⟩,
    c4_port_pair_partition 0 4 [.alloc "a", .rel "a", .alloc "b"] rfl (by decide)⟩

/-! ### api/call_metadata.py and core/call_session.py -/

/-- Embeds the dataclass `CallSession` (the fields `register_call` sets). -/
structure CallSession where
  call_id : String
  customer_port : ℕ
  agent_port : ℕ
  customer_number : Option String
  agent_id : Option String
deriving DecidableEq, Repr

/-- Embeds the pipeline state the REST API touches: the `_sessions`
registry (a dict, as an association list) and the `_port_pool`. -/
structure PipelineSt where
  sessions : List (String × CallSession) := []
  port_pool : PortPool
deriving DecidableEq

/-- Embeds the three JSON responses `register_call` can produce. -/
inductive RegisterResponse
  | already_registered (customer_port agent_port : ℕ)
  | registered (call_id : String) (customer_port agent_port : ℕ)
  | pool_exhausted
deriving DecidableEq, Repr

/-- Embeds `CallMetadataAPI.register_call` for a request body carrying the
given call id and metadata: an existing session is returned as
`already_registered` without touching the pool; otherwise a pair is
allocated and the session stored (`ValueError` from an exhausted pool
becomes the 503 response with the state unchanged). -/
def register_call (st : PipelineSt) (call_id : String)
    (customer_number agent_id : Option String) :
    RegisterResponse × PipelineSt :=
  match st.sessions.find? (fun e => e.1 == call_id) with
  | some e =>
    (.already_registered e.2.customer_port e.2.agent_port, st)
  | none =>
    match st.port_pool.allocateR call_id with
    | some ((customer_port, agent_port), pool2) =>
      let session : CallSession :=
        ⟨call_id, customer_port, agent_port, customer_number, agent_id⟩
      (.registered call_id customer_port agent_port,
        { sessions := (call_id, session) ::
            st.sessions.filter fun e => !(e.1 == call_id)
          port_pool := pool2 })
    | none => (.pool_exhausted, st)

/-- Embeds `CallMetadataAPI.end_call`: the HTTP status code with the body
status string, and the new state (`release` the ports, pop the session). -/
def end_call (st : PipelineSt) (call_id : Option String) :
    (ℕ × String) × PipelineSt :=
  match call_id with
  | none => ((400, "call_id is required"), st)
  | some cid =>
    ((200, "ended"),
      { sessions := st.sessions.filter fun e => !(e.1 == cid)
        port_pool := st.port_pool.release cid })

/-- C6: registering a fresh call id allocates one pair; registering the
same call id again returns that same pair, leaves the whole state
untouched, and the pool has lost exactly the one pair. -/
theorem c6_duplicate_register_returns_same_pair (st : PipelineSt)
    (cid : String) (cn ai cn2 ai2 : Option String)
    (hfresh : st.sessions.find? (fun e => e.1 == cid) = none)
    (hpool : st.port_pool.available.Nonempty) :
    ∃ c a,
      (register_call st cid cn ai).1 = RegisterResponse.registered cid c a ∧
      (register_call (register_call st cid cn ai).2 cid cn2 ai2).1 =
        RegisterResponse.already_registered c a ∧
      (register_call (register_call st cid cn ai).2 cid cn2 ai2).2 =
        (register_call st cid cn ai).2 ∧
      a = c + 1 ∧
      c ∈ st.port_pool.available ∧
      (register_call st cid cn ai).2.port_pool.available =
        st.port_pool.available.erase c ∧
      (register_call st cid cn ai).2.port_pool.available.card + 1 =
        st.port_pool.available.card := by
  set c := st.port_pool.available.min' hpool with hc
  have hcmem : c ∈ st.port_pool.available := st.port_pool.available.min'_mem hpool
  have halloc : st.port_pool.allocateR cid =
      some ((c, c + 1),
        { available := st.port_pool.available.erase c
          allocated := (cid, c, c + 1) ::
            st.port_pool.allocated.filter fun e => !(e.1 == cid) }) := by
    unfold PortPool.allocateR
    rw [dif_pos hpool]
  have h1 : register_call st cid cn ai =
      (.registered cid c (c + 1),
        { sessions := (cid, ⟨cid, c, c + 1, cn, ai⟩) ::
            st.sessions.filter fun e => !(e.1 == cid)
          port_pool :=
            { available := st.port_pool.available.erase c
              allocated := (cid, c, c + 1) ::
                st.port_pool.allocated.filter fun e => !(e.1 == cid) } }) := by
    unfold register_call
    rw [hfresh, halloc]
  refine ⟨c, c + 1, ?_, ?_, ?_, rfl, hcmem, ?_, ?_⟩
  · rw [h1]
  · rw [h1]
    unfold register_call
    simp [List.find?_cons_of_pos]
  · rw [h1]
    unfold register_call
    simp [List.find?_cons_of_pos]
  · rw [h1]
  · rw [h1]
    exact Finset.card_erase_add_one hcmem

/-- C6 witness: a fresh registration of `"a"` on the two-pair pool. -/
theorem c6_duplicate_register_returns_same_pair_witness :
    ([] : List (String × CallSession)).find? (fun e => e.1 == "a") = none ∧
    (PortPool.init 0 4).available.Nonempty ∧
    ∃ c a,
      (register_call ⟨[], PortPool.init 0 4⟩ "a" none none).1 =
        RegisterResponse.registered "a" c a ∧
      (register_call (register_call ⟨[], PortPool.init 0 4⟩ "a" none none).2
        "a" none none).1 = RegisterResponse.already_registered c a ∧
      (register_call (register_call ⟨[], PortPool.init 0 4⟩ "a" none none).2
        "a" none none).2 = (register_call ⟨[], PortPool.init 0 4⟩ "a" none none).2 ∧
      a = c + 1 ∧
      c ∈ (PortPool.init 0 4).available ∧
      (register_call ⟨[], PortPool.init 0 4⟩ "a" none none).2.port_pool.available =
        (PortPool.init 0 4).available.erase c ∧
      (register_call ⟨[], PortPool.init 0 4⟩ "a" none none).2.port_pool.available.card + 1 =
        (PortPool.init 0 4).available.card :=
  ⟨rfl, by decide,
    c6_duplicate_register_returns_same_pair ⟨[], PortPool.init 0 4⟩ "a"
      none none none none rfl (by decide)⟩

/-- C10: ending a call id that was never registered returns HTTP 200 with
status `"ended"` and leaves the whole state (pool and registry) unchanged,
because `PortPool.release` of an unknown id is a no-op. -/
theorem c10_end_unknown_call_noop (st : PipelineSt) (cid : String)
    (hs : st.sessions.find? (fun e => e.1 == cid) = none)
    (hp : st.port_pool.allocated.find? (fun e => e.1 == cid) = none) :
    end_call st (some cid) = ((200, "ended"), st) := by
  unfold end_call
  dsimp only
  have hrel : st.port_pool.release cid = st.port_pool := by
    unfold PortPool.release
    rw [hp]
  have hfil : (st.sessions.filter fun e => !(e.1 == cid)) = st.sessions := by
    rw [List.filter_eq_self]
    intro e he
    have := List.find?_eq_none.mp hs e he
    simpa using this
  rw [hrel, hfil]

/-- C10 witness: ending the unknown call `"x"` on a fresh state. -/
theorem c10_end_unknown_call_noop_witness :
    ([] : List (String × CallSession)).find? (fun e => e.1 == "x") = none ∧
    (PortPool.init 0 4).allocated.find? (fun e => e.1 == "x") = none ∧
    end_call ⟨[], PortPool.init 0 4⟩ (some "x") =
      ((200, "ended"), ⟨[], PortPool.init 0 4⟩) :=
  ⟨rfl, rfl,
    c10_end_unknown_call_noop ⟨[], PortPool.init 0 4⟩ "x" rfl rfl⟩

end Aicc
